import Mathlib

/-!
Shallow embedding of `jishaku/features/management.py` (the `ManagementFeature`
cog of a Discord bot): the `load`/`reload`, `unload`, `shutdown`, `jskinvite`,
`rtt` and `sync` chat-command handlers.

Modelling conventions:
* Each handler is a pure Lean function returning the ordered list of observable
  `Effect`s it performs (framework calls and messages sent), mirroring the
  sequential `await` calls of the Python source.
* The environment (the injected `bot` object, the invocation context `ctx`,
  the wall clock and the remote HTTP API) is passed in as explicit data;
  fallible external calls are fields returning `Option`/`Except` values.
* Python machine integers are arbitrary-precision, so `Nat`/`Int` model them
  exactly; `float` timing samples, which no claim inspects numerically, are
  modelled by `Rat`, and Python's `"%.2f"` float rendering is abstracted by
  decimal rendering of the rational.
* `commands.Paginator(prefix='', suffix='')` is modelled by its ordered list of
  added lines (`add_line(..., empty=True)` appends the line and a blank line);
  the 2000-character page chunking is abstracted to a single page, which no
  claim depends on.
-/

namespace Jishaku

/-- An observable action a handler performs against the bot framework or the
chat platform, in program order. -/
inductive Effect where
  | send (msg : String)
  | editMsg (msg : String)
  | loadExt (name : String)
  | reloadExt (name : String)
  | unloadExt (name : String)
  | closeBot
  | fetchAppInfo
  | syncGlobal
  | syncGuild (g : Int)
deriving DecidableEq, Repr

/-- A Python exception as far as this file observes one: its type name, its
message, and its traceback frames (most recent call last). -/
structure Exc where
  typeName : String
  msg : String
  frames : List String
deriving DecidableEq, Repr

/-- Models `''.join(traceback.format_exception(type(exc), exc, exc.__traceback__, limit))`:
the header, at most `limit` traceback frames, then the exception line. -/
def format_exception (e : Exc) (limit : Nat) : String :=
  "Traceback (most recent call last):\n"
    ++ String.join ((e.frames.take limit).map (fun f => f ++ "\n"))
    ++ e.typeName ++ ": " ++ e.msg ++ "\n"

/-- One node of the application-command tree: `name`, the `_children` values
when the node has a `_children` attribute, the `_params` keys, and the
file/line-span that `jishaku.repl.inspections` (code outside this file) would
report for it — `none` when those inspections raise. -/
inductive AppCmd where
  | mk (name : String) (children : Option (List AppCmd)) (params : List String)
      (loc : Option (String × String))

def AppCmd.name : AppCmd → String
  | .mk n _ _ _ => n

def AppCmd.children : AppCmd → Option (List AppCmd)
  | .mk _ c _ _ => c

def AppCmd.params : AppCmd → List String
  | .mk _ _ p _ => p

def AppCmd.loc : AppCmd → Option (String × String)
  | .mk _ _ _ l => l

/-- The bot's command tree: `_get_all_commands(None)` and the
`_guild_commands` mapping from guild id to that guild's commands. -/
structure CommandTree where
  globalCommands : List AppCmd
  guildCommands : List (Int × List AppCmd)

/-- `tree._get_all_commands(guild=...)`: the global commands for `none`, the
guild's registered commands (empty when unregistered) otherwise. -/
def CommandTree.getAllCommands (t : CommandTree) (guild : Option Int) : List AppCmd :=
  match guild with
  | none => t.globalCommands
  | some g => (t.guildCommands.lookup g).getD []

/-- The injected `self.bot` object, as far as this file reads it. The
`…Result` fields give the exception (if any) that the corresponding extension
operation raises; `httpSync` gives, per target, either the count of synced
commands or the text of the raised `discord.HTTPException`. -/
structure Bot where
  extensions : List String
  loadResult : String → Option Exc
  reloadResult : String → Option Exc
  unloadResult : String → Option Exc
  applicationInfoId : Nat
  application_id : Option Nat
  latency : Rat
  tree : CommandTree
  httpSync : Option Int → Except String Nat

/-- The invocation context `ctx`: the author's id, the alias the command was
invoked with, and the guild (with its id) if the message was sent in one. -/
structure Ctx where
  authorId : Nat
  invokedWith : String
  guild : Option Int

/-- Models `commands.Paginator(prefix='', suffix='')` by the lines added. -/
structure Paginator where
  lines : List String
deriving DecidableEq, Repr

/-- `paginator.add_line(line, empty=True)`: the line then a blank line. -/
def Paginator.addLineEmpty (p : Paginator) (line : String) : Paginator :=
  ⟨p.lines ++ [line, ""]⟩

/-- `paginator.pages` with `prefix=''`: no page when nothing was added,
otherwise the joined lines (page chunking abstracted to a single page). -/
def Paginator.pages (p : Paginator) : List String :=
  if p.lines = [] then [] else [String.intercalate "\n" p.lines]

/-! ### `load` / `reload` and `unload` -/

/-- The method-selection step of `jsk_load`: `reload_extension` with the
`pln` icon when the extension is loaded, otherwise `load_extension` with the
`lopn` icon; paired with the outcome of running that method. -/
def loadIconMethod (bot : Bot) (extension : String) : Effect × String × Option Exc :=
  if extension ∈ bot.extensions then
    (Effect.reloadExt extension, "<:pln:1002153692268593173>", bot.reloadResult extension)
  else
    (Effect.loadExt extension, "<:lopn:1002153688812490842>", bot.loadResult extension)

/-- The line added to the paginator for one extension: the icon and name on
success, or the icon, name and a ```py block with the depth-1 traceback on
failure. -/
def extLine (icon extension : String) (res : Option Exc) : String :=
  match res with
  | some exc => icon ++ " `" ++ extension ++ "`\n```py\n" ++ format_exception exc 1 ++ "\n```"
  | none => icon ++ " `" ++ extension ++ "`"

/-- The `for extension in itertools.chain(*extensions)` loop of `jsk_load`:
per extension, the framework call and the paginator line. -/
def loadLoop (bot : Bot) : List String → Paginator → List Effect × Paginator
  | [], p => ([], p)
  | extension :: rest, p =>
    let (eff, icon, res) := loadIconMethod bot extension
    let (effs, p') := loadLoop bot rest (p.addLineEmpty (extLine icon extension res))
    (eff :: effs, p')

/-- The `jsk_load` handler (`load`, alias `reload`). -/
def jsk_load (bot : Bot) (ctx : Ctx) (extensions : List (List String)) : List Effect :=
  if ctx.authorId ≠ 271140080188522497 ∧ ctx.authorId ≠ 982960716413825085 then [] else
  let extensions := if ctx.invokedWith = "reload" ∧ extensions = [] then [["jishaku"]] else extensions
  let (effs, p) := loadLoop bot extensions.flatten ⟨[]⟩
  effs ++ p.pages.map Effect.send

/-- The `for extension in itertools.chain(*extensions)` loop of `jsk_unload`. -/
def unloadLoop (bot : Bot) : List String → Paginator → List Effect × Paginator
  | [], p => ([], p)
  | extension :: rest, p =>
    let line := extLine "<:Info:1002155559098781787>" extension (bot.unloadResult extension)
    let (effs, p') := unloadLoop bot rest (p.addLineEmpty line)
    (Effect.unloadExt extension :: effs, p')

/-- The `jsk_unload` handler (`unload`). -/
def jsk_unload (bot : Bot) (ctx : Ctx) (extensions : List (List String)) : List Effect :=
  if ctx.authorId ≠ 271140080188522497 ∧ ctx.authorId ≠ 982960716413825085 then [] else
  let (effs, p) := unloadLoop bot extensions.flatten ⟨[]⟩
  effs ++ p.pages.map Effect.send

/-! ### `shutdown` and `jskinvite` -/

/-- The `jsk_shutdown` handler (`shutdown`, alias `logout`). -/
def jsk_shutdown (ctx : Ctx) : List Effect :=
  if ctx.authorId ≠ 271140080188522497 ∧ ctx.authorId ≠ 982960716413825085 then [] else
  [Effect.send "Logging out now <:bot:1002153704645988372>", Effect.closeBot]

/-- The `jsk_invite` handler (`jskinvite`). The `perms` arguments are accepted
but never read by the body, and there is no author-id gate. -/
def jsk_invite (bot : Bot) (ctx : Ctx) (perms : List String) : List Effect :=
  [Effect.fetchAppInfo,
   Effect.send ("Link to invite this bot:\nhttps://discordapp.com/oauth2/authorize?client_id="
     ++ toString bot.applicationInfoId ++ "&permissions=8&scope=bot")]

/-! ### `rtt` -/

/-- External inputs of `jsk_rtt` that live outside this file: the
`time.perf_counter` elapsed time for each request, and `jishaku.math.mean_stddev`
(code of this repository not under scrutiny here, kept abstract). -/
structure RttEnv where
  timings : Nat → Rat
  meanStddev : List Rat → Rat × Rat

/-- Decimal rendering standing in for Python's `f"{x * 100:.2f}"`. -/
def fmtMs (x : Rat) : String := toString (x * 100)

/-- The message text built at the top of each `jsk_rtt` iteration. -/
def rttText (env : RttEnv) (latency : Rat) (apiReadings wsReadings : List Rat) : String :=
  let text := "Calculating round-trip time...\n\n"
    ++ String.intercalate "\n"
      (apiReadings.enum.map (fun p => "Reading " ++ toString (p.1 + 1) ++ ": " ++ fmtMs p.2 ++ "ms"))
  let text := text ++
    (if apiReadings ≠ [] then
      let (average, stddev) := env.meanStddev apiReadings
      "\n\nAverage: " ++ fmtMs average ++ " ± " ++ fmtMs stddev ++ "ms"
    else "\n\nNo readings yet.")
  text ++
    (if wsReadings ≠ [] then
      "\nWebsocket latency: " ++ fmtMs (wsReadings.sum / wsReadings.length) ++ "ms"
    else "\nWebsocket latency: " ++ fmtMs latency ++ "ms")

/-- The six-iteration loop of `jsk_rtt`: build the text, send it the first
time and edit the message afterwards, record the elapsed time, and record the
websocket latency when it is positive. -/
def rttLoop (env : RttEnv) (bot : Bot) (i : Nat) (fuel : Nat) (haveMsg : Bool)
    (api ws : List Rat) : List Effect :=
  match fuel with
  | 0 => []
  | fuel + 1 =>
    let text := rttText env bot.latency api ws
    let eff := if haveMsg then Effect.editMsg text else Effect.send text
    let api' := api ++ [env.timings i]
    let ws' := if bot.latency > 0 then ws ++ [bot.latency] else ws
    eff :: rttLoop env bot (i + 1) fuel true api' ws'

/-- The `jsk_rtt` handler (`rtt`, alias `jskping`). -/
def jsk_rtt (env : RttEnv) (bot : Bot) (ctx : Ctx) : List Effect :=
  if ctx.authorId ≠ 271140080188522497 ∧ ctx.authorId ≠ 982960716413825085 then [] else
  rttLoop env bot 0 6 false [] []

/-! ### `sync`: the `SLASH_COMMAND_ERROR` regex -/

/-- Whether a character matches `[a-z]`. -/
def isLowerAlpha (c : Char) : Bool := 'a' ≤ c && c ≤ 'z'

/-- One iteration of `(?:\d+\.[a-z]+\.?)+`: the consumed characters and the
remainder, or `none` when no iteration matches here. The trailing `\.?` is
greedy, as in the Python regex. -/
def slashErrIter (cs : List Char) : Option (List Char × List Char) :=
  let (ds, r1) := cs.span (·.isDigit)
  if ds = [] then none else
  match r1 with
  | '.' :: r2 =>
    let (ls, r3) := r2.span isLowerAlpha
    if ls = [] then none else
    match r3 with
    | '.' :: r4 => some (ds ++ '.' :: ls ++ ['.'], r4)
    | _ => some (ds ++ '.' :: ls, r3)
  | _ => none

/-- As many further iterations of the group as match (greedy `+`); `fuel`
bounds the recursion and is instantiated with the input length. -/
def slashErrRep (fuel : Nat) (cs : List Char) : List Char :=
  match fuel with
  | 0 => []
  | fuel + 1 =>
    match slashErrIter cs with
    | none => []
    | some (g, rest) => g ++ slashErrRep fuel rest

/-- `SLASH_COMMAND_ERROR.match(line)`: the line must start with `In ` followed
by at least one group iteration; returns `match.group(1)`. Since nothing
follows the group in the pattern, greedy matching is maximal munch. -/
def slashCommandErrorMatch (line : String) : Option String :=
  match line.toList with
  | 'I' :: 'n' :: ' ' :: rest =>
    match slashErrIter rest with
    | none => none
    | some (g, r) => some (String.mk (g ++ slashErrRep r.length r))
  | _ => none

/-! ### `sync`: walking the command tree during error diagnosis -/

/-- The value of a nonempty all-digit character run, `none` otherwise. -/
def digitsToNat (cs : List Char) : Option Nat :=
  if cs = [] then none
  else if cs.all (·.isDigit) then
    some (cs.foldl (fun n c => n * 10 + (c.toNat - '0'.toNat)) 0)
  else none

/-- Model of Python `int(s)` on the strings this file feeds it: an optional
sign followed by ASCII digits. (Python additionally strips whitespace and
accepts underscores and non-ASCII digits; none of those forms can name a
guild id and they are not modelled.) -/
def pyInt (s : String) : Option Int :=
  match s.toList with
  | '-' :: cs => (digitsToNat cs).map (fun n => -(n : Int))
  | '+' :: cs => (digitsToNat cs).map (fun n => (n : Int))
  | cs => (digitsToNat cs).map (fun n => (n : Int))

/-- Model of Python `s.split('.')`: every segment between dots, empty
segments included. -/
def splitOnDotAux : List Char → List Char → List String
  | [], acc => [String.mk acc]
  | c :: rest, acc =>
    if c = '.' then String.mk acc :: splitOnDotAux rest []
    else splitOnDotAux rest (acc ++ [c])

/-- `grp.split('.')` over the matched group. -/
def splitOnDot (s : String) : List String := splitOnDotAux s.toList []

/-- The index-path walk over `(index, prop)` pairs taken from `parts`. `pool`
is `None` or a list of commands (`if pool:` is Python truthiness: false for
both `None` and the empty list); errors are the Python exceptions the walk can
raise, caught by the enclosing `try`. `int(parts[part_index])` is modelled on
digit runs (the regex only lets ASCII digit runs reach even positions). -/
def walkPairs : List String → Option (List AppCmd) → Option AppCmd → String →
    Except String (Option AppCmd × String)
  | [], _pool, selected, name => .ok (selected, name)
  | [_], _pool, selected, name => .ok (selected, name)
  | idxStr :: _prop :: rest, pool, selected, name =>
    match digitsToNat idxStr.toList with
    | none => .error ("ValueError: invalid literal for int() with base 10: '" ++ idxStr ++ "'")
    | some index =>
      match pool with
      | some (c :: cs) =>
        match (c :: cs).get? index with
        | none => .error "IndexError: list index out of range"
        | some cmd => walkPairs rest cmd.children (some cmd) (name ++ cmd.name ++ " ")
      | _ =>
        match selected with
        | none => .error "AttributeError: 'NoneType' object has no attribute '_params'"
        | some cmd =>
          match cmd.params.get? index with
          | none => .error "IndexError: list index out of range"
          | some param => walkPairs rest pool selected (name ++ "(parameter: " ++ param ++ ") ")

/-- The body of the per-line `try`: split the matched group on `.`, assert the
part count is even, then walk the pairs. -/
def syncDiag (slashCommands : List AppCmd) (grp : String) :
    Except String (Option AppCmd × String) :=
  let parts := splitOnDot grp
  if parts.length % 2 ≠ 0 then .error "AssertionError: "
  else walkPairs parts (some slashCommands) none ""

/-- The lines appended after a successful walk: nothing when no command was
selected; otherwise the "likely caused by" line with the file/line-span when
the inspections succeed, or without them when the inner `try` catches. -/
def likelyLines (res : Option AppCmd × String) : List String :=
  match res.1 with
  | none => []
  | some cmd =>
    match cmd.loc with
    | some (floc, lspan) =>
      ["🧲 This is likely caused by: `" ++ res.2 ++ "` at " ++ floc ++ ":" ++ lspan]
    | none => ["🧲 This is likely caused by: `" ++ res.2 ++ "`"]

/-- One iteration of the `for line in str(error).split("\n")` loop: the line
itself is always appended; a line not matching the regex is skipped
(`continue`); any exception during the walk is caught and reduced to the
generic "Couldn't determine cause" notice. -/
def diagnoseLine (slashCommands : List AppCmd) (line : String) : List String :=
  line ::
    (match slashCommandErrorMatch line with
     | none => []
     | some grp =>
       match syncDiag slashCommands grp with
       | .ok res => likelyLines res
       | .error e => ["🧲 Couldn't determine cause: " ++ e])

/-! ### `sync`: target parsing, ordering, and the handler -/

/-- `guilds_set.add(g)` on a Python `set`, modelled as membership-guarded
append (the set's iteration order is irrelevant: the list is sorted before
use). -/
def setAdd (g : Option Int) (s : List (Option Int)) : List (Option Int) :=
  if g ∈ s then s else s ++ [g]

/-- `guilds_set |= set(self.bot.tree._guild_commands.keys())`. -/
def setUnionKeys (s : List (Option Int)) (keys : List Int) : List (Option Int) :=
  keys.foldl (fun acc k => setAdd (some k) acc) s

/-- How the target-parsing loop of `jsk_sync` ends: the accumulated set, an
early `ctx.send` + `return`, or a raised `commands.BadArgument`. -/
inductive ParseStep where
  | ok (s : List (Option Int))
  | sendAbort (msg : String)
  | raiseAbort (msg : String)
deriving DecidableEq, Repr

/-- The `for target in targets` parsing loop of `jsk_sync`: `$` adds the
global sentinel, `*` unions in the guild-command keys, `.` adds the current
guild (or sends and returns outside a guild), and anything else must parse as
an integer (`int(target)` modelled by `pyInt`) or `BadArgument` is
raised. -/
def parseTargets (bot : Bot) (ctx : Ctx) : List String → List (Option Int) → ParseStep
  | [], s => .ok s
  | target :: rest, s =>
    if target = "$" then parseTargets bot ctx rest (setAdd none s)
    else if target = "*" then
      parseTargets bot ctx rest (setUnionKeys s (bot.tree.guildCommands.map (·.1)))
    else if target = "." then
      match ctx.guild with
      | some gid => parseTargets bot ctx rest (setAdd (some gid) s)
      | none => .sendAbort "Can't sync guild commands without guild information"
    else
      match pyInt target with
      | some n => parseTargets bot ctx rest (setAdd (some n) s)
      | none => .raiseAbort (target ++ " is not a valid guild ID")

/-- The sort key `lambda g: (g is not None, g)`: the global sentinel `None`
first, then guild ids in ascending order. -/
def syncSortLe (a b : Option Int) : Prop :=
  match a, b with
  | none, _ => True
  | some _, none => False
  | some x, some y => x ≤ y

instance : DecidableRel syncSortLe := fun a b =>
  match a, b with
  | none, _ => isTrue trivial
  | some _, none => isFalse (fun h => h)
  | some x, some y => inferInstanceAs (Decidable (x ≤ y))

instance : IsTotal (Option Int) syncSortLe :=
  ⟨fun a b =>
    match a, b with
    | none, _ => Or.inl trivial
    | some _, none => Or.inr trivial
    | some x, some y => (le_total x y).imp id id⟩

instance : IsTrans (Option Int) syncSortLe :=
  ⟨fun a b c hab hbc =>
    match a, b, c, hab, hbc with
    | none, _, _, _, _ => trivial
    | some _, some _, some _, hab, hbc => le_trans hab hbc⟩

/-- Python truthiness of the `guild` variable (`if guild:`): false for `None`
and for the id `0`. -/
def guildTruthy : Option Int → Bool
  | none => false
  | some g => g ≠ 0

/-- Python truthiness of `self.bot.application_id`
(`if not self.bot.application_id:`): false for `None` and for `0`. -/
def appIdTruthy (bot : Bot) : Bool :=
  match bot.application_id with
  | none => false
  | some n => n ≠ 0

/-- The sorted list of sync targets actually iterated: the parsed set, with
the global sentinel added when no targets were given, sorted by
`(g is not None, g)`. (Python's stable `list.sort` agrees with insertion sort
here: after deduplication all keys are distinct.) -/
def syncGuildList (targets : List String) (s : List (Option Int)) : List (Option Int) :=
  List.insertionSort syncSortLe (if targets = [] then setAdd none s else s)

/-- The bulk-upsert call performed for one target: global when the target `is
None`, the guild call otherwise. -/
def syncCallEffect : Option Int → Effect
  | none => Effect.syncGlobal
  | some g => Effect.syncGuild g

/-- One iteration of the `for guild in guilds` loop: fetch the commands
(`guild=discord.Object(guild) if guild else None` — truthiness), perform the
upsert, and on success or `HTTPException` produce the paginator line; the
command tree is passed through explicitly to record that the iteration never
writes to it. -/
def syncOne (bot : Bot) (tree : CommandTree) (guild : Option Int) :
    List Effect × String × CommandTree :=
  let slashCommands := tree.getAllCommands (if guildTruthy guild then guild else none)
  let callEff := syncCallEffect guild
  match bot.httpSync guild with
  | .ok n =>
    let line :=
      if guildTruthy guild then
        "📡 `" ++ toString (guild.getD 0) ++ "` Synced " ++ toString n ++ " guild commands"
      else "📡 Synced " ++ toString n ++ " global commands"
    ([callEff], line, tree)
  | .error errText =>
    let errorLines := (errText.splitOn "\n").flatMap (diagnoseLine slashCommands)
    let errorText := String.intercalate "\n" errorLines
    let line :=
      if guildTruthy guild then "⚠ `" ++ toString (guild.getD 0) ++ "`: " ++ errorText
      else "⚠ Global: " ++ errorText
    ([callEff], line, tree)

/-- The `for guild in guilds` loop, threading the command tree and the
paginator. -/
def syncLoop (bot : Bot) : List (Option Int) → CommandTree → Paginator →
    List Effect × Paginator × CommandTree
  | [], tree, p => ([], p, tree)
  | g :: rest, tree, p =>
    let (effs, line, tree') := syncOne bot tree g
    let (effs', p', tree'') := syncLoop bot rest tree' (p.addLineEmpty line)
    (effs ++ effs', p', tree'')

/-- The result of a `jsk_sync` invocation: the effects performed, the
`commands.BadArgument` it raised (if any), and the command tree as left
behind. -/
structure SyncResult where
  effects : List Effect
  raised : Option String
  tree : CommandTree

/-- The `jsk_sync` handler (`sync`). -/
def jsk_sync (bot : Bot) (ctx : Ctx) (targets : List String) : SyncResult :=
  if ctx.authorId ≠ 271140080188522497 ∧ ctx.authorId ≠ 982960716413825085 then
    ⟨[], none, bot.tree⟩
  else if ¬ appIdTruthy bot then
    ⟨[Effect.send "Cannot sync when application info not fetched"], none, bot.tree⟩
  else
    match parseTargets bot ctx targets [] with
    | .sendAbort msg => ⟨[Effect.send msg], none, bot.tree⟩
    | .raiseAbort msg => ⟨[], some msg, bot.tree⟩
    | .ok s =>
      let guilds := syncGuildList targets s
      let (effs, p, tree') := syncLoop bot guilds bot.tree ⟨[]⟩
      ⟨effs ++ p.pages.map Effect.send, none, tree'⟩

/-- Whether an effect is one of the two bulk-upsert sync calls. -/
def isSyncCall : Effect → Bool
  | .syncGlobal => true
  | .syncGuild _ => true
  | _ => false

/-- The subsequence of sync calls among a handler's effects. -/
def syncCalls (effs : List Effect) : List Effect := effs.filter isSyncCall

/-! ### Derived per-extension output lines and concrete sample data -/

/-- The paginator line `jsk_load` produces for one extension. -/
def loadLineOf (bot : Bot) (e : String) : String :=
  extLine (loadIconMethod bot e).2.1 e (loadIconMethod bot e).2.2

/-- The paginator line `jsk_unload` produces for one extension. -/
def unloadLineOf (bot : Bot) (e : String) : String :=
  extLine "<:Info:1002155559098781787>" e (bot.unloadResult e)

/-- A concrete exception used to exercise the definitions. -/
def sampleExc : Exc :=
  ⟨"ImportError", "No module named bad", ["  File stub, line 1, in test"]⟩

/-- A concrete bot used to exercise the definitions: one loaded extension,
the extension named `bad` failing every operation, and an HTTP client that
syncs zero commands successfully. -/
def sampleBot : Bot where
  extensions := ["alpha"]
  loadResult := fun e => if e = "bad" then some sampleExc else none
  reloadResult := fun _ => none
  unloadResult := fun e => if e = "bad" then some sampleExc else none
  applicationInfoId := 1234
  application_id := some 1234
  latency := 0
  tree := ⟨[], [(5, [])]⟩
  httpSync := fun _ => .ok 0

/-- A concrete clock/statistics environment for `jsk_rtt`. -/
def sampleRttEnv : RttEnv := ⟨fun _ => 0, fun _ => (0, 0)⟩

/-! ### Helper lemmas about the load/unload loops -/

theorem loadLoop_cons (bot : Bot) (e : String) (rest : List String) (p : Paginator) :
    loadLoop bot (e :: rest) p =
      ((loadIconMethod bot e).1 ::
         (loadLoop bot rest (p.addLineEmpty (loadLineOf bot e))).1,
       (loadLoop bot rest (p.addLineEmpty (loadLineOf bot e))).2) := rfl

theorem loadLoop_lines (bot : Bot) :
    ∀ (l : List String) (p : Paginator),
      (loadLoop bot l p).2.lines = p.lines ++ l.flatMap (fun e => [loadLineOf bot e, ""])
  | [], p => by simp [loadLoop]
  | e :: rest, p => by
    rw [loadLoop_cons]
    simp [loadLoop_lines bot rest, Paginator.addLineEmpty]

theorem loadLoop_effects (bot : Bot) :
    ∀ (l : List String) (p : Paginator),
      (loadLoop bot l p).1 = l.map (fun e => (loadIconMethod bot e).1)
  | [], _ => rfl
  | e :: rest, p => by
    rw [loadLoop_cons]
    simp [loadLoop_effects bot rest]

theorem unloadLoop_cons (bot : Bot) (e : String) (rest : List String) (p : Paginator) :
    unloadLoop bot (e :: rest) p =
      (Effect.unloadExt e ::
         (unloadLoop bot rest (p.addLineEmpty (unloadLineOf bot e))).1,
       (unloadLoop bot rest (p.addLineEmpty (unloadLineOf bot e))).2) := rfl

theorem unloadLoop_lines (bot : Bot) :
    ∀ (l : List String) (p : Paginator),
      (unloadLoop bot l p).2.lines = p.lines ++ l.flatMap (fun e => [unloadLineOf bot e, ""])
  | [], p => by simp [unloadLoop]
  | e :: rest, p => by
    rw [unloadLoop_cons]
    simp [unloadLoop_lines bot rest, Paginator.addLineEmpty]

/-! ### Helper lemmas about the sync target set and loop -/

theorem setAdd_nodup (g : Option Int) (s : List (Option Int)) (h : s.Nodup) :
    (setAdd g s).Nodup := by
  unfold setAdd
  split
  · exact h
  · next hg => simp [List.nodup_append, h, hg]

theorem setUnionKeys_nodup :
    ∀ (keys : List Int) (s : List (Option Int)), s.Nodup → (setUnionKeys s keys).Nodup
  | [], _, h => h
  | k :: ks, s, h => setUnionKeys_nodup ks (setAdd (some k) s) (setAdd_nodup _ _ h)

theorem parseTargets_ok_nodup (bot : Bot) (ctx : Ctx) :
    ∀ (ts : List String) (s s' : List (Option Int)), s.Nodup →
      parseTargets bot ctx ts s = .ok s' → s'.Nodup
  | [], s, s', h, hp => by
    unfold parseTargets at hp
    cases hp
    exact h
  | t :: rest, s, s', h, hp => by
    unfold parseTargets at hp
    split at hp
    · exact parseTargets_ok_nodup bot ctx rest _ s' (setAdd_nodup _ _ h) hp
    · split at hp
      · exact parseTargets_ok_nodup bot ctx rest _ s' (setUnionKeys_nodup _ _ h) hp
      · split at hp
        · split at hp
          · exact parseTargets_ok_nodup bot ctx rest _ s' (setAdd_nodup _ _ h) hp
          · cases hp
        · split at hp
          · exact parseTargets_ok_nodup bot ctx rest _ s' (setAdd_nodup _ _ h) hp
          · cases hp

theorem parseTargets_raise (bot : Bot) (ctx : Ctx) :
    ∀ (ts : List String) (s : List (Option Int)) (msg : String),
      parseTargets bot ctx ts s = .raiseAbort msg →
      ∃ t ∈ ts, t ≠ "$" ∧ t ≠ "*" ∧ t ≠ "." ∧ pyInt t = none ∧
        msg = t ++ " is not a valid guild ID"
  | [], _, msg, hp => by
    unfold parseTargets at hp
    cases hp
  | t :: rest, s, msg, hp => by
    unfold parseTargets at hp
    split at hp
    · obtain ⟨u, hu, hps⟩ := parseTargets_raise bot ctx rest _ msg hp
      exact ⟨u, List.mem_cons_of_mem _ hu, hps⟩
    next h1 =>
      split at hp
      · obtain ⟨u, hu, hps⟩ := parseTargets_raise bot ctx rest _ msg hp
        exact ⟨u, List.mem_cons_of_mem _ hu, hps⟩
      next h2 =>
        split at hp
        · split at hp
          · obtain ⟨u, hu, hps⟩ := parseTargets_raise bot ctx rest _ msg hp
            exact ⟨u, List.mem_cons_of_mem _ hu, hps⟩
          · cases hp
        next h3 =>
          split at hp
          · obtain ⟨u, hu, hps⟩ := parseTargets_raise bot ctx rest _ msg hp
            exact ⟨u, List.mem_cons_of_mem _ hu, hps⟩
          next htoInt =>
            cases hp
            exact ⟨t, List.mem_cons_self t rest, h1, h2, h3, htoInt, rfl⟩

theorem syncOne_tree (bot : Bot) (tree : CommandTree) (g : Option Int) :
    (syncOne bot tree g).2.2 = tree := by
  unfold syncOne
  cases bot.httpSync g <;> rfl

theorem syncOne_effects (bot : Bot) (tree : CommandTree) (g : Option Int) :
    (syncOne bot tree g).1 = [syncCallEffect g] := by
  unfold syncOne
  cases bot.httpSync g <;> rfl

theorem syncLoop_cons (bot : Bot) (g : Option Int) (rest : List (Option Int))
    (tree : CommandTree) (p : Paginator) :
    syncLoop bot (g :: rest) tree p =
      ((syncOne bot tree g).1 ++
         (syncLoop bot rest (syncOne bot tree g).2.2
           (p.addLineEmpty (syncOne bot tree g).2.1)).1,
       (syncLoop bot rest (syncOne bot tree g).2.2
         (p.addLineEmpty (syncOne bot tree g).2.1)).2) := rfl

theorem syncLoop_tree (bot : Bot) :
    ∀ (gs : List (Option Int)) (tree : CommandTree) (p : Paginator),
      (syncLoop bot gs tree p).2.2 = tree
  | [], _, _ => rfl
  | g :: rest, tree, p => by
    rw [syncLoop_cons]
    simp [syncLoop_tree bot rest, syncOne_tree]

theorem syncCalls_sends (msgs : List String) :
    syncCalls (msgs.map Effect.send) = [] := by
  induction msgs with
  | nil => rfl
  | cons m rest _ih => simp [syncCalls, isSyncCall]

theorem isSyncCall_syncCallEffect (g : Option Int) :
    isSyncCall (syncCallEffect g) = true := by
  cases g <;> rfl

theorem syncLoop_syncCalls (bot : Bot) :
    ∀ (gs : List (Option Int)) (tree : CommandTree) (p : Paginator),
      syncCalls (syncLoop bot gs tree p).1 = gs.map syncCallEffect
  | [], _, _ => rfl
  | g :: rest, tree, p => by
    rw [syncLoop_cons, syncOne_effects]
    simp only [syncCalls, List.filter_append, List.filter_cons, List.filter_nil,
      isSyncCall_syncCallEffect, List.map_cons]
    simp only [syncCalls] at syncLoop_syncCalls
    rw [syncLoop_syncCalls bot rest]
    rfl

theorem jsk_sync_ok (bot : Bot) (ctx : Ctx) (targets : List String) (s : List (Option Int))
    (hgate : ¬(ctx.authorId ≠ 271140080188522497 ∧ ctx.authorId ≠ 982960716413825085))
    (happ : appIdTruthy bot = true)
    (hp : parseTargets bot ctx targets [] = .ok s) :
    jsk_sync bot ctx targets =
      ⟨(syncLoop bot (syncGuildList targets s) bot.tree ⟨[]⟩).1
         ++ ((syncLoop bot (syncGuildList targets s) bot.tree ⟨[]⟩).2.1.pages.map Effect.send),
       none,
       (syncLoop bot (syncGuildList targets s) bot.tree ⟨[]⟩).2.2⟩ := by
  unfold jsk_sync
  rw [if_neg hgate, if_neg (not_not_intro happ), hp]

theorem jsk_sync_sendAbort (bot : Bot) (ctx : Ctx) (targets : List String) (msg : String)
    (hgate : ¬(ctx.authorId ≠ 271140080188522497 ∧ ctx.authorId ≠ 982960716413825085))
    (happ : appIdTruthy bot = true)
    (hp : parseTargets bot ctx targets [] = .sendAbort msg) :
    jsk_sync bot ctx targets = ⟨[Effect.send msg], none, bot.tree⟩ := by
  unfold jsk_sync
  rw [if_neg hgate, if_neg (not_not_intro happ), hp]

theorem jsk_sync_raiseAbort (bot : Bot) (ctx : Ctx) (targets : List String) (msg : String)
    (hgate : ¬(ctx.authorId ≠ 271140080188522497 ∧ ctx.authorId ≠ 982960716413825085))
    (happ : appIdTruthy bot = true)
    (hp : parseTargets bot ctx targets [] = .raiseAbort msg) :
    jsk_sync bot ctx targets = ⟨[], some msg, bot.tree⟩ := by
  unfold jsk_sync
  rw [if_neg hgate, if_neg (not_not_intro happ), hp]

/-! ### The claims -/

/-- C1, counterexample: the invite-link handler has no author-id gate. The
user id `0` is neither allowed id, yet `jsk_invite` fetches the application
info and sends the invite link. -/
theorem c1_counterexample :
    (0 : Nat) ≠ 271140080188522497 ∧ (0 : Nat) ≠ 982960716413825085 ∧
    jsk_invite sampleBot ⟨0, "jskinvite", none⟩ ["administrator"] =
      [Effect.fetchAppInfo,
       Effect.send ("Link to invite this bot:\nhttps://discordapp.com/oauth2/authorize?client_id=1234&permissions=8&scope=bot")] :=
  ⟨by decide, by decide, rfl⟩

/-- C1 (amended): when the invoking user's id is neither allowed value, the
load/reload, unload, shutdown, rtt and sync handlers send no output and
perform no framework calls; the invite-link handler, which has no gate,
responds regardless of the invoker. -/
theorem c1_amended (env : RttEnv) (bot : Bot) (ctx : Ctx)
    (extss exts : List (List String)) (targets : List String) (perms : List String)
    (h : ctx.authorId ≠ 271140080188522497 ∧ ctx.authorId ≠ 982960716413825085) :
    jsk_load bot ctx extss = [] ∧ jsk_unload bot ctx exts = [] ∧
    jsk_shutdown ctx = [] ∧ jsk_rtt env bot ctx = [] ∧
    (jsk_sync bot ctx targets).effects = [] ∧ (jsk_sync bot ctx targets).raised = none ∧
    jsk_invite bot ctx perms ≠ [] := by
  refine ⟨?_, ?_, ?_, ?_, ?_, ?_, ?_⟩ <;>
    simp [jsk_load, jsk_unload, jsk_shutdown, jsk_rtt, jsk_sync, jsk_invite, h]

/-- C1, witness for the amended theorem at user id `0`. -/
theorem c1_witness :
    jsk_load sampleBot ⟨0, "load", none⟩ [["alpha"]] = [] ∧
    jsk_unload sampleBot ⟨0, "unload", none⟩ [["alpha"]] = [] ∧
    jsk_shutdown ⟨0, "shutdown", none⟩ = [] ∧
    jsk_rtt sampleRttEnv sampleBot ⟨0, "rtt", none⟩ = [] ∧
    (jsk_sync sampleBot ⟨0, "sync", none⟩ ["$"]).effects = [] ∧
    (jsk_sync sampleBot ⟨0, "sync", none⟩ ["$"]).raised = none ∧
    jsk_invite sampleBot ⟨0, "load", none⟩ [] ≠ [] := by
  have h1 := c1_amended sampleRttEnv sampleBot ⟨0, "load", none⟩ [["alpha"]] [["alpha"]] ["$"] []
    (by decide)
  have h2 := c1_amended sampleRttEnv sampleBot ⟨0, "unload", none⟩ [["alpha"]] [["alpha"]] ["$"] []
    (by decide)
  have h3 := c1_amended sampleRttEnv sampleBot ⟨0, "shutdown", none⟩ [["alpha"]] [["alpha"]] ["$"] []
    (by decide)
  have h4 := c1_amended sampleRttEnv sampleBot ⟨0, "rtt", none⟩ [["alpha"]] [["alpha"]] ["$"] []
    (by decide)
  have h5 := c1_amended sampleRttEnv sampleBot ⟨0, "sync", none⟩ [["alpha"]] [["alpha"]] ["$"] []
    (by decide)
  exact ⟨h1.1, h2.2.1, h3.2.2.1, h4.2.2.2.1, h5.2.2.2.2.1, h5.2.2.2.2.2.1, h1.2.2.2.2.2.2⟩

/-- C2, counterexample: invoked by an authorized user with the non-integer
target `abc`, the sync handler raises `BadArgument` instead of reporting the
failure as chat text. -/
theorem c2_counterexample :
    (jsk_sync sampleBot ⟨271140080188522497, "sync", none⟩ ["abc"]).raised =
      some "abc is not a valid guild ID" := by
  rfl

/-- C2 (amended): handlers report failures as chat text and do not raise,
except that the sync handler raises `commands.BadArgument` when a target
string is none of `$`, `*`, `.` and does not parse as an integer; every
exception a sync invocation raises is of exactly that shape. -/
theorem c2_amended (bot : Bot) (ctx : Ctx) (targets : List String) (msg : String)
    (h : (jsk_sync bot ctx targets).raised = some msg) :
    ∃ t ∈ targets, t ≠ "$" ∧ t ≠ "*" ∧ t ≠ "." ∧ pyInt t = none ∧
      msg = t ++ " is not a valid guild ID" := by
  unfold jsk_sync at h
  split at h
  · simp at h
  · split at h
    · simp at h
    · cases hp : parseTargets bot ctx targets [] with
      | ok s => rw [hp] at h; simp at h
      | sendAbort m => rw [hp] at h; simp at h
      | raiseAbort m =>
        rw [hp] at h
        simp at h
        exact h ▸ parseTargets_raise bot ctx targets [] m hp

/-- C2, witness for the amended theorem: the raise observed for target `xyz`
exhibits the offending target. -/
theorem c2_witness :
    ∃ t ∈ ["xyz"], t ≠ "$" ∧ t ≠ "*" ∧ t ≠ "." ∧ pyInt t = none ∧
      "xyz is not a valid guild ID" = t ++ " is not a valid guild ID" :=
  c2_amended sampleBot ⟨982960716413825085, "sync", none⟩ ["xyz"]
    "xyz is not a valid guild ID" (by rfl)

/-- C3: for every target list that parses, the iterated sync-target list is
duplicate-free and sorted by the key `(g is not None, g)` — the global
sentinel first, then guild ids in ascending order — and the bulk-upsert calls
the handler performs are exactly those targets in that order. -/
theorem c3 (bot : Bot) (ctx : Ctx) (targets : List String) (s : List (Option Int))
    (hgate : ctx.authorId = 271140080188522497 ∨ ctx.authorId = 982960716413825085)
    (happ : appIdTruthy bot = true)
    (hp : parseTargets bot ctx targets [] = .ok s) :
    (syncGuildList targets s).Nodup ∧
    List.Sorted syncSortLe (syncGuildList targets s) ∧
    syncCalls (jsk_sync bot ctx targets).effects =
      (syncGuildList targets s).map syncCallEffect := by
  have hgate' : ¬(ctx.authorId ≠ 271140080188522497 ∧ ctx.authorId ≠ 982960716413825085) := by
    rcases hgate with h | h <;> simp [h]
  have hnodup : (if targets = [] then setAdd none s else s).Nodup := by
    have hs := parseTargets_ok_nodup bot ctx targets [] s List.nodup_nil hp
    split
    · exact setAdd_nodup none s hs
    · exact hs
  refine ⟨?_, ?_, ?_⟩
  · exact ((List.perm_insertionSort syncSortLe _).nodup_iff).mpr hnodup
  · exact List.sorted_insertionSort syncSortLe _
  · rw [jsk_sync_ok bot ctx targets s hgate' happ hp]
    have hloop := syncLoop_syncCalls bot (syncGuildList targets s) bot.tree ⟨[]⟩
    have hsend :=
      syncCalls_sends (syncLoop bot (syncGuildList targets s) bot.tree ⟨[]⟩).2.1.pages
    simp only [syncCalls] at hloop hsend ⊢
    simp [List.filter_append, hloop, hsend]

/-- C3, witness: targets `["7", "$", "7"]` against the sample bot. -/
theorem c3_witness :
    (syncGuildList ["7", "$", "7"] [some 7, none]).Nodup ∧
    List.Sorted syncSortLe (syncGuildList ["7", "$", "7"] [some 7, none]) ∧
    syncCalls (jsk_sync sampleBot ⟨271140080188522497, "sync", none⟩ ["7", "$", "7"]).effects =
      (syncGuildList ["7", "$", "7"] [some 7, none]).map syncCallEffect :=
  c3 sampleBot ⟨271140080188522497, "sync", none⟩ ["7", "$", "7"] [some 7, none]
    (Or.inl rfl) (by rfl) (by rfl)

/-- C4: an authorized sync invocation with no targets (and a fetched
application id) performs exactly one bulk-upsert call, the global one; the
iterated target list is the singleton global sentinel. -/
theorem c4 (bot : Bot) (ctx : Ctx)
    (hgate : ctx.authorId = 271140080188522497 ∨ ctx.authorId = 982960716413825085)
    (happ : appIdTruthy bot = true) :
    syncGuildList [] [] = [none] ∧
    syncCalls (jsk_sync bot ctx []).effects = [Effect.syncGlobal] := by
  have hgate' : ¬(ctx.authorId ≠ 271140080188522497 ∧ ctx.authorId ≠ 982960716413825085) := by
    rcases hgate with h | h <;> simp [h]
  have hp : parseTargets bot ctx [] [] = .ok [] := rfl
  refine ⟨rfl, ?_⟩
  rw [jsk_sync_ok bot ctx [] [] hgate' happ hp]
  have hloop := syncLoop_syncCalls bot (syncGuildList [] []) bot.tree ⟨[]⟩
  have hsend := syncCalls_sends (syncLoop bot (syncGuildList [] []) bot.tree ⟨[]⟩).2.1.pages
  simp only [syncCalls] at hloop hsend ⊢
  simp [List.filter_append, hloop, hsend]
  rfl

/-- C4, witness at the sample bot. -/
theorem c4_witness :
    syncGuildList [] [] = [none] ∧
    syncCalls (jsk_sync sampleBot ⟨982960716413825085, "sync", none⟩ []).effects =
      [Effect.syncGlobal] :=
  c4 sampleBot ⟨982960716413825085, "sync", none⟩ (Or.inr rfl) (by rfl)

/-- C5: a failing extension in `load`/`reload` or `unload` is caught,
reported inline as one line holding the depth-1-truncated traceback, and the
loop continues over every remaining extension; the per-extension framework
calls are likewise one per input, in order. -/
theorem c5 (bot : Bot) (pre post : List String) (e : String) (excl excu : Exc)
    (hl : (loadIconMethod bot e).2.2 = some excl)
    (hu : bot.unloadResult e = some excu) :
    (loadLoop bot (pre ++ e :: post) ⟨[]⟩).2.lines =
      (loadLoop bot pre ⟨[]⟩).2.lines
        ++ [(loadIconMethod bot e).2.1 ++ " `" ++ e ++ "`\n```py\n"
              ++ format_exception excl 1 ++ "\n```", ""]
        ++ (loadLoop bot post ⟨[]⟩).2.lines ∧
    (loadLoop bot (pre ++ e :: post) ⟨[]⟩).1 =
      (pre ++ e :: post).map (fun x => (loadIconMethod bot x).1) ∧
    (unloadLoop bot (pre ++ e :: post) ⟨[]⟩).2.lines =
      (unloadLoop bot pre ⟨[]⟩).2.lines
        ++ ["<:Info:1002155559098781787> `" ++ e ++ "`\n```py\n"
              ++ format_exception excu 1 ++ "\n```", ""]
        ++ (unloadLoop bot post ⟨[]⟩).2.lines := by
  refine ⟨?_, loadLoop_effects bot _ _, ?_⟩
  · simp [loadLoop_lines, loadLineOf, extLine, hl]
  · simp [unloadLoop_lines, unloadLineOf, extLine, hu]

/-- C5, witness: the extension `bad` failing between `alpha` and `beta`. -/
theorem c5_witness :
    (loadLoop sampleBot (["alpha"] ++ "bad" :: ["beta"]) ⟨[]⟩).2.lines =
      (loadLoop sampleBot ["alpha"] ⟨[]⟩).2.lines
        ++ [(loadIconMethod sampleBot "bad").2.1 ++ " `" ++ "bad" ++ "`\n```py\n"
              ++ format_exception sampleExc 1 ++ "\n```", ""]
        ++ (loadLoop sampleBot ["beta"] ⟨[]⟩).2.lines ∧
    (loadLoop sampleBot (["alpha"] ++ "bad" :: ["beta"]) ⟨[]⟩).1 =
      (["alpha"] ++ "bad" :: ["beta"]).map (fun x => (loadIconMethod sampleBot x).1) ∧
    (unloadLoop sampleBot (["alpha"] ++ "bad" :: ["beta"]) ⟨[]⟩).2.lines =
      (unloadLoop sampleBot ["alpha"] ⟨[]⟩).2.lines
        ++ ["<:Info:1002155559098781787> `" ++ "bad" ++ "`\n```py\n"
              ++ format_exception sampleExc 1 ++ "\n```", ""]
        ++ (unloadLoop sampleBot ["beta"] ⟨[]⟩).2.lines :=
  c5 sampleBot ["alpha"] ["beta"] "bad" sampleExc sampleExc (by rfl) (by rfl)

/-- C6: the `load`/`reload` and `unload` loops produce, per input extension
name and in input order, exactly one content line for that name (followed by
the blank spacer `add_line(..., empty=True)` inserts), and that line is
either the success marker or the captured failure text for the extension. -/
theorem c6 (bot : Bot) (exts : List String) :
    (loadLoop bot exts ⟨[]⟩).2.lines = exts.flatMap (fun e => [loadLineOf bot e, ""]) ∧
    (unloadLoop bot exts ⟨[]⟩).2.lines = exts.flatMap (fun e => [unloadLineOf bot e, ""]) ∧
    (∀ e, ((loadIconMethod bot e).2.2 = none ∧
            loadLineOf bot e = (loadIconMethod bot e).2.1 ++ " `" ++ e ++ "`") ∨
          (∃ exc, (loadIconMethod bot e).2.2 = some exc ∧
            loadLineOf bot e = (loadIconMethod bot e).2.1 ++ " `" ++ e ++ "`\n```py\n"
              ++ format_exception exc 1 ++ "\n```")) ∧
    (∀ e, (bot.unloadResult e = none ∧
            unloadLineOf bot e = "<:Info:1002155559098781787> `" ++ e ++ "`") ∨
          (∃ exc, bot.unloadResult e = some exc ∧
            unloadLineOf bot e = "<:Info:1002155559098781787> `" ++ e ++ "`\n```py\n"
              ++ format_exception exc 1 ++ "\n```")) := by
  refine ⟨by simp [loadLoop_lines], by simp [unloadLoop_lines], ?_, ?_⟩
  · intro e
    cases hres : (loadIconMethod bot e).2.2 with
    | none => exact Or.inl ⟨rfl, by simp [loadLineOf, extLine, hres]⟩
    | some exc => exact Or.inr ⟨exc, rfl, by simp [loadLineOf, extLine, hres]⟩
  · intro e
    cases hres : bot.unloadResult e with
    | none => exact Or.inl ⟨rfl, by simp [unloadLineOf, extLine, hres]⟩
    | some exc => exact Or.inr ⟨exc, rfl, by simp [unloadLineOf, extLine, hres]⟩

/-- C7, counterexample: an error line that does not match the known
error-message shape is passed through with nothing appended — no generic
notice is added for it. -/
theorem c7_counterexample :
    slashCommandErrorMatch "hello" = none ∧ diagnoseLine [] "hello" = ["hello"] := by
  exact ⟨rfl, rfl⟩

/-- C7 (amended): for every error line, the line itself is kept; a line not
matching the known error-message shape is skipped silently with nothing
appended; when the line matches but walking the index path through the
command/subcommand/parameter tree fails in any way, the generic
"Couldn't determine cause" notice is appended instead of the failure
propagating (the diagnosis functions are total). -/
theorem c7_amended (cmds : List AppCmd) (line : String) :
    (slashCommandErrorMatch line = none → diagnoseLine cmds line = [line]) ∧
    (∀ grp e, slashCommandErrorMatch line = some grp → syncDiag cmds grp = .error e →
      diagnoseLine cmds line = [line, "🧲 Couldn't determine cause: " ++ e]) ∧
    (∀ grp res, slashCommandErrorMatch line = some grp → syncDiag cmds grp = .ok res →
      diagnoseLine cmds line = line :: likelyLines res) := by
  refine ⟨?_, ?_, ?_⟩
  · intro h; simp [diagnoseLine, h]
  · intro grp e h1 h2; simp [diagnoseLine, h1, h2]
  · intro grp res h1 h2; simp [diagnoseLine, h1, h2]

/-- C7, witness: the line `In 1.name.` matches the shape but its index path
has an odd number of parts, so the assert fails and the generic notice is
appended. -/
theorem c7_witness :
    diagnoseLine [] "In 1.name." =
      ["In 1.name.", "🧲 Couldn't determine cause: AssertionError: "] :=
  (c7_amended [] "In 1.name.").2.1 "1.name." "AssertionError: " (by rfl) (by rfl)

/-- C8: a sync invocation leaves the command tree exactly as it found it:
every access during target collection, payload construction and error
diagnosis is a read, and the tree threaded through the per-target loop comes
back unchanged. -/
theorem c8 (bot : Bot) (ctx : Ctx) (targets : List String) :
    (jsk_sync bot ctx targets).tree = bot.tree := by
  unfold jsk_sync
  split
  · rfl
  · split
    · rfl
    · cases hp : parseTargets bot ctx targets [] with
      | ok s => simp [syncLoop_tree]
      | sendAbort m => rfl
      | raiseAbort m => rfl

/-- C9: when an authorized sync invocation hits a precondition failure — the
application id unavailable, `.` used outside a guild, or a target that is
none of `$`, `*`, `.` and not an integer — the handler performs no
bulk-upsert call at all (even when valid targets were listed) and produces
exactly one notice: a single sent message, or a single raised
`BadArgument`. -/
theorem c9 (bot : Bot) (ctx : Ctx) (targets : List String)
    (hgate : ctx.authorId = 271140080188522497 ∨ ctx.authorId = 982960716413825085)
    (hfail : appIdTruthy bot = false ∨
      (∃ m, parseTargets bot ctx targets [] = .sendAbort m) ∨
      (∃ m, parseTargets bot ctx targets [] = .raiseAbort m)) :
    syncCalls (jsk_sync bot ctx targets).effects = [] ∧
    ((∃ m, (jsk_sync bot ctx targets).effects = [Effect.send m] ∧
        (jsk_sync bot ctx targets).raised = none) ∨
     ((jsk_sync bot ctx targets).effects = [] ∧
        ∃ m, (jsk_sync bot ctx targets).raised = some m)) := by
  have hgate' : ¬(ctx.authorId ≠ 271140080188522497 ∧ ctx.authorId ≠ 982960716413825085) := by
    rcases hgate with h | h <;> simp [h]
  rcases hfail with happ | ⟨m, hp⟩ | ⟨m, hp⟩
  · have : jsk_sync bot ctx targets =
        ⟨[Effect.send "Cannot sync when application info not fetched"], none, bot.tree⟩ := by
      unfold jsk_sync
      rw [if_neg hgate', if_pos (by simp [happ])]
    rw [this]
    exact ⟨rfl, Or.inl ⟨"Cannot sync when application info not fetched", rfl, rfl⟩⟩
  · by_cases happ : appIdTruthy bot = true
    · rw [jsk_sync_sendAbort bot ctx targets m hgate' happ hp]
      exact ⟨rfl, Or.inl ⟨m, rfl, rfl⟩⟩
    · have : jsk_sync bot ctx targets =
          ⟨[Effect.send "Cannot sync when application info not fetched"], none, bot.tree⟩ := by
        unfold jsk_sync
        rw [if_neg hgate', if_pos (by simpa using happ)]
      rw [this]
      exact ⟨rfl, Or.inl ⟨"Cannot sync when application info not fetched", rfl, rfl⟩⟩
  · by_cases happ : appIdTruthy bot = true
    · rw [jsk_sync_raiseAbort bot ctx targets m hgate' happ hp]
      exact ⟨rfl, Or.inr ⟨rfl, m, rfl⟩⟩
    · have : jsk_sync bot ctx targets =
          ⟨[Effect.send "Cannot sync when application info not fetched"], none, bot.tree⟩ := by
        unfold jsk_sync
        rw [if_neg hgate', if_pos (by simpa using happ)]
      rw [this]
      exact ⟨rfl, Or.inl ⟨"Cannot sync when application info not fetched", rfl, rfl⟩⟩

/-- C9, witness: the valid target `5` followed by `.` outside a guild aborts
with one sent notice and no sync call. -/
theorem c9_witness :
    syncCalls (jsk_sync sampleBot ⟨271140080188522497, "sync", none⟩ ["5", "."]).effects = [] ∧
    ((∃ m, (jsk_sync sampleBot ⟨271140080188522497, "sync", none⟩ ["5", "."]).effects =
        [Effect.send m] ∧
        (jsk_sync sampleBot ⟨271140080188522497, "sync", none⟩ ["5", "."]).raised = none) ∨
     ((jsk_sync sampleBot ⟨271140080188522497, "sync", none⟩ ["5", "."]).effects = [] ∧
        ∃ m, (jsk_sync sampleBot ⟨271140080188522497, "sync", none⟩ ["5", "."]).raised =
          some m)) :=
  c9 sampleBot ⟨271140080188522497, "sync", none⟩ ["5", "."] (Or.inl rfl)
    (Or.inr (Or.inl ⟨"Can't sync guild commands without guild information", by rfl⟩))

/-- C10: the invite-link message does not depend on the permission-name
arguments or anything else but the application id: two invocations with equal
application ids send identical output, which always carries the fixed
`permissions=8` value. -/
theorem c10 (bot bot' : Bot) (ctx ctx' : Ctx) (perms perms' : List String)
    (h : bot.applicationInfoId = bot'.applicationInfoId) :
    jsk_invite bot ctx perms = jsk_invite bot' ctx' perms' ∧
    jsk_invite bot ctx perms =
      [Effect.fetchAppInfo,
       Effect.send ("Link to invite this bot:\nhttps://discordapp.com/oauth2/authorize?client_id="
         ++ toString bot.applicationInfoId ++ "&permissions=8&scope=bot")] := by
  constructor
  · simp [jsk_invite, h]
  · rfl

/-- C10, witness: two bots differing in extensions and latency but sharing
the application id, invoked with different permission lists. -/
theorem c10_witness :
    jsk_invite sampleBot ⟨0, "jskinvite", none⟩ ["administrator", "ban_members"] =
      jsk_invite { sampleBot with extensions := [], latency := 1 }
        ⟨271140080188522497, "jskinvite", some 5⟩ [] ∧
    jsk_invite sampleBot ⟨0, "jskinvite", none⟩ ["administrator", "ban_members"] =
      [Effect.fetchAppInfo,
       Effect.send ("Link to invite this bot:\nhttps://discordapp.com/oauth2/authorize?client_id="
         ++ toString sampleBot.applicationInfoId ++ "&permissions=8&scope=bot")] :=
  c10 sampleBot { sampleBot with extensions := [], latency := 1 }
    ⟨0, "jskinvite", none⟩ ⟨271140080188522497, "jskinvite", some 5⟩
    ["administrator", "ban_members"] [] rfl

end Jishaku
